import Mathlib

/-!
Verification of the cart-storage abstraction and the checkout orchestration
workflow of a microservices demo shop.

The cart service (src/cartservice/main.go) is embedded directly: its two
backends (`redisCartStore` backed by a key-value store, `memoryCartStore`
backed by an in-process map) share the identical list-merge algorithm for
`AddItem` and differ only in where the per-user item list lives.  Quantities
are Go `int32` values, so the in-place `Quantity += quantity` update wraps
modulo 2^32; we model that with `wrap32` on `Int`.

The checkout service's source is not part of the analysed tree, so
`placeOrder` is modelled from the specification's step-by-step algorithm
(spec section 4.2), with the downstream services abstracted as an
environment of oracles and every outbound call recorded in a trace.
-/

namespace CartService

/-- A stored cart line item, mirroring the Go struct `cartItem` with fields
`ProductID string` and `Quantity int32`. -/
structure cartItem where
  productID : String
  quantity : Int
deriving DecidableEq, Repr

/-- Signed 32-bit wrap-around, the semantics of Go `int32` addition overflow:
maps an integer to its representative in `[-2^31, 2^31)`. -/
def wrap32 (n : Int) : Int :=
  (n + 2 ^ 31) % 2 ^ 32 - 2 ^ 31

/-- An integer representable as a Go `int32`. -/
def InInt32Range (n : Int) : Prop :=
  -(2 ^ 31) ≤ n ∧ n < 2 ^ 31

instance (n : Int) : Decidable (InInt32Range n) := by
  unfold InInt32Range; infer_instance

/-- The merge loop shared verbatim by `redisCartStore.AddItem` and
`memoryCartStore.AddItem`: scan the list for the first item with the given
product ID and add the quantity into it (32-bit wrapping, as the Go field is
`int32`); if no item matches, append a new item at the end. -/
def addToCart : List cartItem → String → Int → List cartItem
  | [], productID, quantity => [⟨productID, quantity⟩]
  | item :: rest, productID, quantity =>
    if item.productID = productID then
      ⟨item.productID, wrap32 (item.quantity + quantity)⟩ :: rest
    else
      item :: addToCart rest productID quantity

/-- The reply of `GetCart`, mirroring `pb.Cart` with `UserId` and `Items`
(the conversion `cartItem` to `pb.CartItem` in the Go code is an identity on
the two fields we model). -/
structure Cart where
  userId : String
  items : List cartItem
deriving DecidableEq, Repr

/-- Error outcome of a store operation, mirroring the Go `error` returns;
both backends' every modelled path returns `ok` (connection failures of the
external Redis client are environment events outside the store state). -/
inductive StoreResult (α : Type) where
  | ok (value : α)
deriving DecidableEq, Repr

/-- Whether a store operation succeeded (returned a nil Go `error`). -/
def StoreResult.isOk {α : Type} : StoreResult α → Bool
  | .ok _ => true

/-- The payload of a successful store reply. -/
def StoreResult.value {α : Type} : StoreResult α → α
  | .ok v => v

/-- The state of either backend: per user ID, optionally a stored item list.
`none` means the key was never written (Go map: key absent; Redis: `redis.Nil`). -/
def StoreState : Type := String → Option (List cartItem)

/-- The backend state in which no cart has ever been stored. -/
def emptyStore : StoreState := fun _ => none

/-- `memoryCartStore.AddItem`: read `s.carts[userID]` (absent key reads as the
empty list), run the merge loop, write the result back, return nil error. -/
def memAddItem (s : StoreState) (userID productID : String) (quantity : Int) :
    StoreResult Unit × StoreState :=
  (.ok (), Function.update s userID (some (addToCart ((s userID).getD []) productID quantity)))

/-- `memoryCartStore.GetCart`: build a `pb.Cart` for the user from the stored
list (absent key yields zero items); never returns an error. -/
def memGetCart (s : StoreState) (userID : String) : StoreResult Cart :=
  .ok ⟨userID, (s userID).getD []⟩

/-- `memoryCartStore.EmptyCart`: overwrite the user's entry with the empty
list, return nil error. -/
def memEmptyCart (s : StoreState) (userID : String) : StoreResult Unit × StoreState :=
  (.ok (), Function.update s userID (some []))

/-- `redisCartStore.getCartItems`: `GET userID`; `redis.Nil` (absent key)
yields the empty list. JSON (un)marshalling of values the store itself wrote
round-trips, so values are kept structured. -/
def redisGetCartItems (s : StoreState) (userID : String) : List cartItem :=
  (s userID).getD []

/-- `redisCartStore.AddItem`: read the items, run the same merge loop, save. -/
def redisAddItem (s : StoreState) (userID productID : String) (quantity : Int) :
    StoreResult Unit × StoreState :=
  (.ok (), Function.update s userID (some (addToCart (redisGetCartItems s userID) productID quantity)))

/-- `redisCartStore.GetCart`: wrap the stored items in a `pb.Cart`. -/
def redisGetCart (s : StoreState) (userID : String) : StoreResult Cart :=
  .ok ⟨userID, redisGetCartItems s userID⟩

/-- `redisCartStore.EmptyCart`: `saveCart(userID, [])`. -/
def redisEmptyCart (s : StoreState) (userID : String) : StoreResult Unit × StoreState :=
  (.ok (), Function.update s userID (some []))

/-- A mutation of the cart store, for stating reachability invariants over
sequences of `AddItem` and `EmptyCart` requests. -/
inductive CartOp where
  | add (userID productID : String) (quantity : Int)
  | empty (userID : String)

/-- Apply one operation to the in-memory backend. -/
def memApplyOp (s : StoreState) : CartOp → StoreState
  | .add u p q => (memAddItem s u p q).2
  | .empty u => (memEmptyCart s u).2

/-- Apply one operation to the Redis-backed backend. -/
def redisApplyOp (s : StoreState) : CartOp → StoreState
  | .add u p q => (redisAddItem s u p q).2
  | .empty u => (redisEmptyCart s u).2

/-- Run a sequence of operations on an initially empty in-memory store. -/
def memRunOps (ops : List CartOp) : StoreState :=
  ops.foldl memApplyOp emptyStore

/-- Run a sequence of operations on an initially empty Redis-backed store. -/
def redisRunOps (ops : List CartOp) : StoreState :=
  ops.foldl redisApplyOp emptyStore

/-- A cart list holds at most one line item per product ID. -/
def UniquePerProduct (l : List cartItem) : Prop :=
  (l.map cartItem.productID).Nodup

/-- The source `memoryCartStore` (Go struct with the single field
`carts map[string][]cartItem`, no mutex) performs each `AddItem` as an
unguarded read of the shared map followed, after the merge loop, by an
unguarded write.  This function is the two `AddItem` bodies of two
request-handling goroutines under the interleaving in which both reads
happen before either write (read 1, read 2, write 1, write 2), which nothing
in the source excludes. -/
def memAddItemInterleaved (s : StoreState) (u1 p1 : String) (q1 : Int)
    (u2 p2 : String) (q2 : Int) : StoreState :=
  let localCart1 := (s u1).getD []
  let localCart2 := (s u2).getD []
  let afterWrite1 := Function.update s u1 (some (addToCart localCart1 p1 q1))
  Function.update afterWrite1 u2 (some (addToCart localCart2 p2 q2))

end CartService

namespace Checkout

open CartService (cartItem)

/-- An amount in a currency, mirroring the `Money` message: amount plus
currency code. -/
structure Money where
  amount : Int
  currencyCode : String
deriving DecidableEq, Repr

/-- A catalog entry: name and native-currency price. -/
structure Product where
  name : String
  price : Money
deriving DecidableEq, Repr

/-- One outbound RPC of the orchestrator, recorded in the execution trace. -/
inductive Call where
  | cartGet
  | catalog (productID : String)
  | currency
  | shipQuote
  | charge
  | shipConfirm
  | email
  | cartEmpty
deriving DecidableEq, Repr

/-- The fatal error taxonomy of the orchestrator (spec section 7); the
paid-but-unshipped variant carries the transaction ID of the successful
charge. -/
inductive OrderError where
  | emptyCartError
  | productLookupError
  | currencyError
  | shippingQuoteError
  | paymentError
  | orderPlacementError (transactionID : String)
deriving DecidableEq, Repr

/-- A priced line of the final order. -/
structure OrderItem where
  productID : String
  quantity : Int
  cost : Money
deriving DecidableEq, Repr

/-- The orchestrator's successful output. -/
structure OrderResult where
  orderID : String
  items : List OrderItem
  shippingCost : Money
  trackingID : String
  transactionID : String
deriving DecidableEq, Repr

/-- Modelled from the spec: the checkout service's source is not in the
analysed tree, so the downstream collaborators of `PlaceOrder` (spec
sections 4.2 and 6) are abstracted as oracles giving each call's reply:
the cart read, the product catalog, the currency converter, the shipping
quoter and confirmer, the payment processor, the email notifier and the
cart-empty call.  `none` or `false` is that call failing. -/
structure CheckoutEnv where
  cart : List cartItem
  getProduct : String → Option Product
  convert : Money → String → Option Money
  quote : Option Money
  charge : Money → Option String
  confirm : Option String
  sendEmail : Bool
  emptyCart : Bool
  orderID : String

/-- Modelled from the spec: step 2 of `PlaceOrder` — resolve every line item
through the Product Catalog, in order, stopping at the first failure; the
trace records one catalog call per item attempted. -/
def resolveItems (getProduct : String → Option Product) :
    List cartItem → Option (List (cartItem × Product)) × List Call
  | [] => (some [], [])
  | item :: rest =>
    match getProduct item.productID with
    | none => (none, [Call.catalog item.productID])
    | some product =>
      ((resolveItems getProduct rest).1.map (fun l => (item, product) :: l),
       Call.catalog item.productID :: (resolveItems getProduct rest).2)

/-- Modelled from the spec: step 3 of `PlaceOrder` — convert every resolved
item's cost (unit price times quantity) into the requested currency, in
order, stopping at the first failure; one currency call per item attempted. -/
def convertItems (convert : Money → String → Option Money) (currencyCode : String) :
    List (cartItem × Product) → Option (List OrderItem) × List Call
  | [] => (some [], [])
  | (item, product) :: rest =>
    match convert ⟨product.price.amount * item.quantity, product.price.currencyCode⟩ currencyCode with
    | none => (none, [Call.currency])
    | some cost =>
      ((convertItems convert currencyCode rest).1.map
         (fun l => ⟨item.productID, item.quantity, cost⟩ :: l),
       Call.currency :: (convertItems convert currencyCode rest).2)

/-- Sum of the converted item costs. -/
def itemsTotal (items : List OrderItem) : Int :=
  (items.map (fun i => i.cost.amount)).sum

/-- Modelled from the spec: `PlaceOrder` (spec section 4.2), steps in strict
order, each dependent on the previous succeeding: (1) fetch the cart, failing
with `emptyCartError` on zero line items; (2) resolve items via the catalog,
any failure aborts with `productLookupError`; (3) convert prices, failure
aborts with `currencyError`; (4) quote shipping and convert the quote,
failures abort with `shippingQuoteError` resp. `currencyError`; (5) charge
the total, failure aborts with `paymentError`; (6) confirm shipment, failure
after the successful charge aborts with `orderPlacementError` carrying the
charge's transaction ID; (7) send the confirmation email and (8) empty the
cart, both best-effort and unable to change the outcome; (9) return the
assembled result.  Returns the outcome together with the trace of downstream
calls issued. -/
def placeOrder (env : CheckoutEnv) (currencyCode : String) :
    Except OrderError OrderResult × List Call :=
  let t0 := [Call.cartGet]
  if env.cart.isEmpty then
    (.error .emptyCartError, t0)
  else
    match resolveItems env.getProduct env.cart with
    | (none, catalogCalls) => (.error .productLookupError, t0 ++ catalogCalls)
    | (some resolved, catalogCalls) =>
      match convertItems env.convert currencyCode resolved with
      | (none, currencyCalls) =>
        (.error .currencyError, t0 ++ catalogCalls ++ currencyCalls)
      | (some orderItems, currencyCalls) =>
        let t1 := t0 ++ catalogCalls ++ currencyCalls
        match env.quote with
        | none => (.error .shippingQuoteError, t1 ++ [Call.shipQuote])
        | some rawQuote =>
          match env.convert rawQuote currencyCode with
          | none => (.error .currencyError, t1 ++ [Call.shipQuote, Call.currency])
          | some shippingCost =>
            let t2 := t1 ++ [Call.shipQuote, Call.currency]
            let total : Money := ⟨itemsTotal orderItems + shippingCost.amount, currencyCode⟩
            match env.charge total with
            | none => (.error .paymentError, t2 ++ [Call.charge])
            | some transactionID =>
              let t3 := t2 ++ [Call.charge]
              match env.confirm with
              | none =>
                (.error (.orderPlacementError transactionID), t3 ++ [Call.shipConfirm])
              | some trackingID =>
                let t4 := t3 ++ [Call.shipConfirm, Call.email, Call.cartEmpty]
                (.ok ⟨env.orderID, orderItems, shippingCost, trackingID, transactionID⟩, t4)

/-- A concrete fully healthy environment, used to instantiate the checkout
theorems: one cart line, a catalog pricing everything at 10 USD, identity
currency conversion, a 5-unit shipping quote, a payment processor answering
transaction `TX1` and a shipping confirmation `T123`. -/
def healthyEnv : CheckoutEnv where
  cart := [⟨"P1", 2⟩]
  getProduct := fun pid => some ⟨pid, ⟨10, "USD"⟩⟩
  convert := fun m c => some ⟨m.amount, c⟩
  quote := some ⟨5, "USD"⟩
  charge := fun _ => some "TX1"
  confirm := some "T123"
  sendEmail := true
  emptyCart := true
  orderID := "O1"

/-- `healthyEnv` with an empty cart. -/
def emptyCartEnv : CheckoutEnv :=
  { healthyEnv with cart := [] }

/-- `healthyEnv` with a payment processor that declines every charge. -/
def declinedEnv : CheckoutEnv :=
  { healthyEnv with charge := fun _ => none }

/-- `healthyEnv` with a shipping confirmation that fails. -/
def confirmFailEnv : CheckoutEnv :=
  { healthyEnv with confirm := none }

end Checkout

open CartService Checkout

namespace CartService

/-- Wrapping addition is the identity on results that fit in an `int32`. -/
theorem wrap32_eq_self (n : Int) (h : InInt32Range n) : wrap32 n = n := by
  unfold wrap32 InInt32Range at *
  omega

/-- Adding a product that is absent from the cart appends it at the end. -/
theorem addToCart_absent (l : List cartItem) (p : String) (q : Int)
    (h : ∀ item ∈ l, item.productID ≠ p) :
    addToCart l p q = l ++ [⟨p, q⟩] := by
  induction l with
  | nil => rfl
  | cons item rest ih =>
    simp only [addToCart]
    rw [if_neg (h item (by simp)), ih (fun i hi => h i (by simp [hi]))]
    simp

/-- Adding a product whose single entry sits at the end of the cart merges
into that entry with wrapping addition. -/
theorem addToCart_merge_last (l : List cartItem) (p : String) (q1 q2 : Int)
    (h : ∀ item ∈ l, item.productID ≠ p) :
    addToCart (l ++ [⟨p, q1⟩]) p q2 = l ++ [⟨p, wrap32 (q1 + q2)⟩] := by
  induction l with
  | nil => simp [addToCart]
  | cons item rest ih =>
    simp only [List.cons_append, addToCart, List.append_eq]
    rw [if_neg (h item (by simp)), ih (fun i hi => h i (by simp [hi]))]

/-- Filtering for a product held only by the final entry returns exactly that
entry. -/
theorem filter_productID_last (l : List cartItem) (p : String) (w : Int)
    (h : ∀ item ∈ l, item.productID ≠ p) :
    (l ++ [(⟨p, w⟩ : cartItem)]).filter (fun i => i.productID == p) = [⟨p, w⟩] := by
  induction l with
  | nil => simp
  | cons item rest ih =>
    simp only [List.cons_append, List.filter_cons]
    have : (item.productID == p) = false := by
      simpa using h item (by simp)
    rw [this]
    exact ih (fun i hi => h i (by simp [hi]))

/-- Every product ID present after `addToCart` was present before or is the
added one. -/
theorem mem_map_addToCart (l : List cartItem) (p x : String) (q : Int)
    (h : x ∈ (addToCart l p q).map cartItem.productID) :
    x ∈ l.map cartItem.productID ∨ x = p := by
  induction l with
  | nil =>
    simp [addToCart] at h
    exact Or.inr h
  | cons item rest ih =>
    simp only [addToCart] at h
    by_cases hp : item.productID = p
    · rw [if_pos hp] at h
      simp only [List.map_cons, List.mem_cons] at h
      simp only [List.map_cons, List.mem_cons]
      tauto
    · rw [if_neg hp] at h
      simp only [List.map_cons, List.mem_cons] at h
      simp only [List.map_cons, List.mem_cons]
      rcases h with h | h
      · exact Or.inl (Or.inl h)
      · rcases ih h with h1 | h1
        · exact Or.inl (Or.inr h1)
        · exact Or.inr h1

/-- The merge loop preserves uniqueness of product IDs in a cart. -/
theorem addToCart_unique (l : List cartItem) (p : String) (q : Int)
    (h : UniquePerProduct l) : UniquePerProduct (addToCart l p q) := by
  induction l with
  | nil => simp [addToCart, UniquePerProduct]
  | cons item rest ih =>
    simp only [addToCart]
    by_cases hp : item.productID = p
    · rw [if_pos hp]
      exact h
    · rw [if_neg hp]
      unfold UniquePerProduct at h ⊢
      simp only [List.map_cons, List.nodup_cons] at h ⊢
      obtain ⟨hnotin, hrest⟩ := h
      refine ⟨?_, ih hrest⟩
      intro hmem
      rcases mem_map_addToCart rest p item.productID q hmem with h1 | h1
      · exact hnotin h1
      · exact hp h1

/-- Running any operation sequence on the in-memory backend keeps every
user's cart unique per product, given the starting state is. -/
theorem memRunOps_unique_aux (ops : List CartOp) :
    ∀ s : StoreState, (∀ u, UniquePerProduct ((s u).getD [])) →
      ∀ u, UniquePerProduct ((ops.foldl memApplyOp s u).getD []) := by
  induction ops with
  | nil => intro s hs u; exact hs u
  | cons op rest ih =>
    intro s hs u
    simp only [List.foldl_cons]
    apply ih
    intro v
    cases op with
    | add u0 p q =>
      simp only [memApplyOp, memAddItem]
      by_cases hv : v = u0
      · subst hv
        rw [Function.update_same]
        exact addToCart_unique _ p q (hs v)
      · rw [Function.update_noteq hv]
        exact hs v
    | empty u0 =>
      simp only [memApplyOp, memEmptyCart]
      by_cases hv : v = u0
      · subst hv
        rw [Function.update_same]
        simp [UniquePerProduct]
      · rw [Function.update_noteq hv]
        exact hs v

/-- The two backends' transition functions coincide in the model. -/
theorem redisApplyOp_eq_memApplyOp : redisApplyOp = memApplyOp := by
  funext s op
  cases op <;> rfl

end CartService

namespace Checkout

/-- Every call issued while resolving items is a catalog call. -/
theorem resolveItems_calls_catalog (f : String → Option Product) (l : List cartItem) :
    ∀ c ∈ (resolveItems f l).2, ∃ pid, c = Call.catalog pid := by
  induction l with
  | nil => simp [resolveItems]
  | cons item rest ih =>
    simp only [resolveItems]
    cases hf : f item.productID with
    | none =>
      intro c hc
      simp at hc
      exact ⟨item.productID, hc⟩
    | some product =>
      intro c hc
      simp only [List.mem_cons] at hc
      rcases hc with hc | hc
      · exact ⟨item.productID, hc⟩
      · exact ih c hc

/-- Every call issued while converting item prices is a currency call. -/
theorem convertItems_calls_currency (cv : Money → String → Option Money)
    (cc : String) (l : List (cartItem × Product)) :
    ∀ c ∈ (convertItems cv cc l).2, c = Call.currency := by
  induction l with
  | nil => simp [convertItems]
  | cons pair rest ih =>
    rcases pair with ⟨item, product⟩
    simp only [convertItems]
    cases hf : cv ⟨product.price.amount * item.quantity, product.price.currencyCode⟩ cc with
    | none =>
      intro c hc
      simpa using hc
    | some cost =>
      intro c hc
      simp only [List.mem_cons] at hc
      rcases hc with hc | hc
      · exact hc
      · exact ih c hc

/-- If the trace of a `PlaceOrder` run contains the charge call, then every
step before the charge succeeded: the cart was non-empty, all items resolved,
all prices converted, and the shipping quote was obtained and converted. -/
theorem placeOrder_charge_reached (env : CheckoutEnv) (cc : String)
    (hreach : Call.charge ∈ (placeOrder env cc).2) :
    ∃ resolved orderItems catalogCalls currencyCalls rawQuote shippingCost,
      env.cart.isEmpty = false ∧
      resolveItems env.getProduct env.cart = (some resolved, catalogCalls) ∧
      convertItems env.convert cc resolved = (some orderItems, currencyCalls) ∧
      env.quote = some rawQuote ∧
      env.convert rawQuote cc = some shippingCost := by
  by_cases hemp : env.cart.isEmpty
  · exfalso
    simp [placeOrder, hemp] at hreach
  · have hemp' : env.cart.isEmpty = false := by simpa using hemp
    rcases hres : resolveItems env.getProduct env.cart with ⟨resQ, catalogCalls⟩
    have hcat : ∀ c ∈ catalogCalls, ∃ pid, c = Call.catalog pid := by
      have h := resolveItems_calls_catalog env.getProduct env.cart
      rw [hres] at h
      exact h
    have hcatCharge : Call.charge ∉ catalogCalls := by
      intro h
      rcases hcat _ h with ⟨pid, hp⟩
      exact Call.noConfusion hp
    cases resQ with
    | none =>
      exfalso
      simp [placeOrder, hemp', hres, hcatCharge] at hreach
    | some resolved =>
      rcases hconv : convertItems env.convert cc resolved with ⟨convQ, currencyCalls⟩
      have hcur : ∀ c ∈ currencyCalls, c = Call.currency := by
        have h := convertItems_calls_currency env.convert cc resolved
        rw [hconv] at h
        exact h
      have hcurCharge : Call.charge ∉ currencyCalls := by
        intro h
        exact Call.noConfusion (hcur _ h)
      cases convQ with
      | none =>
        exfalso
        simp [placeOrder, hemp', hres, hconv, hcatCharge, hcurCharge] at hreach
      | some orderItems =>
        cases hq : env.quote with
        | none =>
          exfalso
          simp [placeOrder, hemp', hres, hconv, hq, hcatCharge, hcurCharge] at hreach
        | some rawQuote =>
          cases hcv : env.convert rawQuote cc with
          | none =>
            exfalso
            simp [placeOrder, hemp', hres, hconv, hq, hcv, hcatCharge, hcurCharge] at hreach
          | some shippingCost =>
            exact ⟨resolved, orderItems, catalogCalls, currencyCalls, rawQuote, shippingCost,
              hemp', rfl, hconv, rfl, hcv⟩

end Checkout

/-- C1: on a cart with zero line items, `PlaceOrder` fails with
`EmptyCartError` and its downstream-call trace is exactly the single cart
read — no catalog, currency, shipping, payment, email or cart-empty call. -/
theorem C1_placeOrder_emptyCart (env : CheckoutEnv) (currencyCode : String)
    (h : env.cart = []) :
    placeOrder env currencyCode = (.error .emptyCartError, [Call.cartGet]) := by
  simp [placeOrder, h]

/-- C1 witness: the concrete empty-cart environment. -/
theorem C1_placeOrder_emptyCart_witness :
    placeOrder emptyCartEnv "USD" = (.error .emptyCartError, [Call.cartGet]) :=
  C1_placeOrder_emptyCart emptyCartEnv "USD" rfl

/-- C2: in every `PlaceOrder` execution in which the payment processor's
charge call is made and fails, the call aborts with `PaymentError` and the
trace contains no shipping-confirm, email or cart-empty call. -/
theorem C2_payment_failure_no_downstream (env : CheckoutEnv) (currencyCode : String)
    (hfail : ∀ m, env.charge m = none)
    (hreach : Call.charge ∈ (placeOrder env currencyCode).2) :
    (placeOrder env currencyCode).1 = .error .paymentError ∧
    Call.shipConfirm ∉ (placeOrder env currencyCode).2 ∧
    Call.email ∉ (placeOrder env currencyCode).2 ∧
    Call.cartEmpty ∉ (placeOrder env currencyCode).2 := by
  obtain ⟨resolved, orderItems, catalogCalls, currencyCalls, rawQuote, shippingCost,
    hemp, hres, hconv, hq, hcv⟩ := placeOrder_charge_reached env currencyCode hreach
  have hcat := resolveItems_calls_catalog env.getProduct env.cart
  rw [hres] at hcat
  have hcur := convertItems_calls_currency env.convert currencyCode resolved
  rw [hconv] at hcur
  have hns : Call.shipConfirm ∉ catalogCalls := fun h => by
    rcases hcat _ h with ⟨pid, hp⟩
    exact Call.noConfusion hp
  have hne : Call.email ∉ catalogCalls := fun h => by
    rcases hcat _ h with ⟨pid, hp⟩
    exact Call.noConfusion hp
  have hnc : Call.cartEmpty ∉ catalogCalls := fun h => by
    rcases hcat _ h with ⟨pid, hp⟩
    exact Call.noConfusion hp
  have hms : Call.shipConfirm ∉ currencyCalls := fun h => Call.noConfusion (hcur _ h)
  have hme : Call.email ∉ currencyCalls := fun h => Call.noConfusion (hcur _ h)
  have hmc : Call.cartEmpty ∉ currencyCalls := fun h => Call.noConfusion (hcur _ h)
  refine ⟨?_, ?_, ?_, ?_⟩ <;>
    simp [placeOrder, hemp, hres, hconv, hq, hcv, hfail, hns, hne, hnc, hms, hme, hmc]

/-- C2 witness: the concrete environment whose payment processor declines. -/
theorem C2_payment_failure_no_downstream_witness :
    (placeOrder declinedEnv "USD").1 = .error .paymentError ∧
    Call.shipConfirm ∉ (placeOrder declinedEnv "USD").2 ∧
    Call.email ∉ (placeOrder declinedEnv "USD").2 ∧
    Call.cartEmpty ∉ (placeOrder declinedEnv "USD").2 :=
  C2_payment_failure_no_downstream declinedEnv "USD" (fun _ => rfl) (by decide)

/-- C3: when the charge succeeds with some transaction ID and the subsequent
shipping confirmation fails, `PlaceOrder` returns `OrderPlacementError`
carrying exactly that transaction ID, and `OrderPlacementError` is distinct
from every other error variant. -/
theorem C3_confirm_failure_carries_tx (env : CheckoutEnv) (currencyCode tx : String)
    (hcharge : ∀ m, env.charge m = some tx)
    (hconfirm : env.confirm = none)
    (hreach : Call.charge ∈ (placeOrder env currencyCode).2) :
    (placeOrder env currencyCode).1 = .error (.orderPlacementError tx) ∧
    ∀ t : String, OrderError.orderPlacementError t ≠ .emptyCartError ∧
      OrderError.orderPlacementError t ≠ .productLookupError ∧
      OrderError.orderPlacementError t ≠ .currencyError ∧
      OrderError.orderPlacementError t ≠ .shippingQuoteError ∧
      OrderError.orderPlacementError t ≠ .paymentError := by
  obtain ⟨resolved, orderItems, catalogCalls, currencyCalls, rawQuote, shippingCost,
    hemp, hres, hconv, hq, hcv⟩ := placeOrder_charge_reached env currencyCode hreach
  constructor
  · simp [placeOrder, hemp, hres, hconv, hq, hcv, hcharge, hconfirm]
  · intro t
    refine ⟨?_, ?_, ?_, ?_, ?_⟩ <;> simp

/-- C3 witness: the concrete environment whose shipping confirmation fails
after a successful `TX1` charge. -/
theorem C3_confirm_failure_carries_tx_witness :
    (placeOrder confirmFailEnv "USD").1 = .error (.orderPlacementError "TX1") ∧
    ∀ t : String, OrderError.orderPlacementError t ≠ .emptyCartError ∧
      OrderError.orderPlacementError t ≠ .productLookupError ∧
      OrderError.orderPlacementError t ≠ .currencyError ∧
      OrderError.orderPlacementError t ≠ .shippingQuoteError ∧
      OrderError.orderPlacementError t ≠ .paymentError :=
  C3_confirm_failure_carries_tx confirmFailEnv "USD" "TX1" (fun _ => rfl) rfl (by decide)

/-- C6: for a user ID under which nothing was ever stored, `GetCart` succeeds
with a cart of zero line items, on both the in-memory and the Redis-backed
backend. -/
theorem C6_getCart_unknown_user (s : StoreState) (u : String) (h : s u = none) :
    memGetCart s u = .ok ⟨u, []⟩ ∧ redisGetCart s u = .ok ⟨u, []⟩ := by
  simp [memGetCart, redisGetCart, redisGetCartItems, h]

/-- C6 witness: the never-written store at a concrete user. -/
theorem C6_getCart_unknown_user_witness :
    memGetCart emptyStore "alice" = .ok ⟨"alice", []⟩ ∧
    redisGetCart emptyStore "alice" = .ok ⟨"alice", []⟩ :=
  C6_getCart_unknown_user emptyStore "alice" rfl

/-- C7: on both backends and from every prior state, `EmptyCart` is
idempotent (running it a second time returns the same reply and leaves the
state identical) and `EmptyCart` followed by `GetCart` for the same user
yields a cart with zero line items. -/
theorem C7_emptyCart_idempotent_roundtrip (s : StoreState) (u : String) :
    memEmptyCart (memEmptyCart s u).2 u = memEmptyCart s u ∧
    memGetCart (memEmptyCart s u).2 u = .ok ⟨u, []⟩ ∧
    redisEmptyCart (redisEmptyCart s u).2 u = redisEmptyCart s u ∧
    redisGetCart (redisEmptyCart s u).2 u = .ok ⟨u, []⟩ := by
  refine ⟨?_, ?_, ?_, ?_⟩ <;>
    simp [memEmptyCart, redisEmptyCart, memGetCart, redisGetCart, redisGetCartItems,
      Function.update_idem, Function.update_same]

/-- C8: the in-memory backend never fails — from every state and for every
argument, `AddItem`, `GetCart` and `EmptyCart` all return a nil error. -/
theorem C8_memStore_never_fails (s : StoreState) (u p : String) (q : Int) :
    (memAddItem s u p q).1 = .ok () ∧ (memGetCart s u).isOk = true ∧
    (memEmptyCart s u).1 = .ok () :=
  ⟨rfl, rfl, rfl⟩

/-- C4 counterexample: the quantity field is a Go `int32`, so the merge's
in-place addition wraps.  `AddItem(u, P1, 2^30)` twice followed by `GetCart`
stores quantity `-2^31`, not `q1 + q2 = 2^31`, refuting the claim as stated. -/
theorem C4_addItem_sum_counterexample :
    (memGetCart (memAddItem (memAddItem emptyStore "u" "P1" 1073741824).2
        "u" "P1" 1073741824).2 "u").value.items = [⟨"P1", -2147483648⟩] ∧
    ¬ (memGetCart (memAddItem (memAddItem emptyStore "u" "P1" 1073741824).2
        "u" "P1" 1073741824).2 "u").value.items = [⟨"P1", 1073741824 + 1073741824⟩] := by
  constructor <;> decide

/-- C4 (amended): for a product not already in the user's cart, the first
`AddItem` appends it as a new last line item, and after a second `AddItem`
`GetCart` yields exactly one line item for that product whose quantity is the
signed 32-bit wrap of `q1 + q2` — equal to `q1 + q2` whenever that sum fits
in an `int32` — on both backends. -/
theorem C4_addItem_merge (s : StoreState) (u p : String) (q1 q2 : Int)
    (habs : ∀ item ∈ (s u).getD [], item.productID ≠ p) :
    (memAddItem s u p q1).2 u = some ((s u).getD [] ++ [⟨p, q1⟩]) ∧
    ((memGetCart (memAddItem (memAddItem s u p q1).2 u p q2).2 u).value.items.filter
       (fun i => i.productID == p)) = [⟨p, wrap32 (q1 + q2)⟩] ∧
    (InInt32Range (q1 + q2) →
      ((memGetCart (memAddItem (memAddItem s u p q1).2 u p q2).2 u).value.items.filter
         (fun i => i.productID == p)) = [⟨p, q1 + q2⟩]) ∧
    (redisAddItem s u p q1).2 u = some ((s u).getD [] ++ [⟨p, q1⟩]) ∧
    ((redisGetCart (redisAddItem (redisAddItem s u p q1).2 u p q2).2 u).value.items.filter
       (fun i => i.productID == p)) = [⟨p, wrap32 (q1 + q2)⟩] := by
  have hfirst : (memAddItem s u p q1).2 u = some ((s u).getD [] ++ [⟨p, q1⟩]) := by
    simp [memAddItem, Function.update_same, addToCart_absent _ _ _ habs]
  have hsecond :
      (memGetCart (memAddItem (memAddItem s u p q1).2 u p q2).2 u).value.items
        = (s u).getD [] ++ [⟨p, wrap32 (q1 + q2)⟩] := by
    simp only [memGetCart, memAddItem, Function.update_same, StoreResult.value,
      Option.getD_some]
    rw [addToCart_absent _ _ _ habs, addToCart_merge_last _ _ _ _ habs]
  have hfilter :
      ((memGetCart (memAddItem (memAddItem s u p q1).2 u p q2).2 u).value.items.filter
        (fun i => i.productID == p)) = [⟨p, wrap32 (q1 + q2)⟩] := by
    rw [hsecond]
    exact filter_productID_last _ _ _ habs
  refine ⟨hfirst, hfilter, ?_, hfirst, hfilter⟩
  intro hrange
  rw [hfilter, wrap32_eq_self _ hrange]

/-- C4 witness: the spec's own example — quantities 2 then 3 for a fresh
product yield the single line item with quantity 5. -/
theorem C4_addItem_merge_witness :
    ((memGetCart (memAddItem (memAddItem emptyStore "u" "P1" 2).2 "u" "P1" 3).2 "u").value.items.filter
       (fun i => i.productID == "P1")) = [⟨"P1", 5⟩] :=
  (C4_addItem_merge emptyStore "u" "P1" 2 3
    (by intro item hmem; simp [emptyStore] at hmem)).2.2.1 (by decide)

/-- C5: the source `memoryCartStore` holds only the bare map (no mutex), so
each `AddItem` is an unguarded read of the shared map followed by an
unguarded write.  Under the interleaving read-1, read-2, write-1, write-2 of
two concurrent `AddItem(u, P1, 1)` calls — which nothing in the source
excludes — one update is lost: the final quantity is 1, while any serialized
execution of the two calls ends with quantity 2. -/
theorem C5_mem_unguarded_lost_update :
    memAddItemInterleaved emptyStore "u" "P1" 1 "u" "P1" 1 "u" = some [⟨"P1", 1⟩] ∧
    (memAddItem (memAddItem emptyStore "u" "P1" 1).2 "u" "P1" 1).2 "u" = some [⟨"P1", 2⟩] ∧
    memAddItemInterleaved emptyStore "u" "P1" 1 "u" "P1" 1 "u" ≠
      (memAddItem (memAddItem emptyStore "u" "P1" 1).2 "u" "P1" 1).2 "u" := by
  refine ⟨?_, ?_, ?_⟩ <;> decide

/-- C9: `AddItem` validates nothing: on both backends every call returns a
nil error for every quantity; a quantity merged into an existing line item is
added with no sign or zero check, so stored quantities of zero (2 then -2)
and negative values (-5) are reachable. -/
theorem C9_addItem_no_validation (s : StoreState) (u p : String) (q q0 : Int)
    (rest : List cartItem) :
    (memAddItem s u p q).1 = .ok () ∧ (redisAddItem s u p q).1 = .ok () ∧
    (memAddItem (Function.update s u (some (⟨p, q0⟩ :: rest))) u p q).2 u
      = some (⟨p, wrap32 (q0 + q)⟩ :: rest) ∧
    (memGetCart (memAddItem (memAddItem emptyStore "u" "P1" 2).2 "u" "P1" (-2)).2 "u").value.items
      = [⟨"P1", 0⟩] ∧
    (memGetCart (memAddItem emptyStore "u" "P1" (-5)).2 "u").value.items = [⟨"P1", -5⟩] := by
  refine ⟨rfl, rfl, ?_, by decide, by decide⟩
  simp [memAddItem, Function.update_same, addToCart]

/-- C10: starting from the empty store, every sequence of `AddItem` and
`EmptyCart` operations leaves every user's cart with at most one line item
per product ID, on both backends. -/
theorem C10_unique_per_product (ops : List CartOp) (u : String) :
    UniquePerProduct ((memRunOps ops u).getD []) ∧
    UniquePerProduct ((redisRunOps ops u).getD []) := by
  have hmem := memRunOps_unique_aux ops emptyStore
    (fun v => by simp [emptyStore, UniquePerProduct]) u
  have heq : redisRunOps ops = memRunOps ops := by
    unfold redisRunOps memRunOps
    rw [redisApplyOp_eq_memApplyOp]
  exact ⟨hmem, heq ▸ hmem⟩
